import Mathlib

/-!
Shallow embedding of the kit database-abstraction core (src/src-tauri/src):
the value model (main.rs), the embedded sqlite backend (native.rs), the
remote libsql backend (libsql.rs) and the dispatcher (db_manager.rs).

Conventions of the embedding:
* `Option` at the outermost layer models a Rust panic (`unwrap` on `None`):
  `none` means the process aborts, `some` means the call returns.
* `Except String` models Rust `Result<_, String>`.
* The sqlite engine behind the embedded backend is abstracted as a
  `NativeDb`: a catalog of named tables, each a list of declared column
  names plus a list of rows.  A prepared `SELECT * FROM t LIMIT 100`
  materializes `rows.take 100`, `stmt.column_names()` is the declared
  column-name list, and `SELECT COUNT(star) FROM t` returns `rows.length`.
* The libsql wire transport is abstracted as a `RemoteResultSet`: each row
  is the name-to-rendered-text association list that the client's
  `value_map` iteration yields, in iteration order.
-/

/-- Value model from main.rs: the `SerializableValue` enum with variants
Null, Integer(i64), Real(f64), Text(String), Blob(bytes). -/
inductive SerializableValue where
  | Null : SerializableValue
  | Integer (i : Int) : SerializableValue
  | Real (r : Float) : SerializableValue
  | Text (s : String) : SerializableValue
  | Blob (b : List UInt8) : SerializableValue

/-- Column metadata from main.rs: `ColumnInfo \x7b name, type_name \x7d`. -/
structure ColumnInfo where
  name : String
  type_name : String
deriving DecidableEq

/-- Result shape from main.rs: `TableRequest \x7b column_names, rows, row_count \x7d`
(`row_count` is an i64 in the source, modelled as `Int`). -/
structure TableRequest where
  column_names : List ColumnInfo
  rows : List (List SerializableValue)
  row_count : Int

/-- The runtime type tag the embedded backend infers from a value
(the `match value` inside `get_table_data` / `run_query` in native.rs). -/
def typeNameOfValue : SerializableValue → String
  | SerializableValue.Null => "NULL"
  | SerializableValue.Integer _ => "INTEGER"
  | SerializableValue.Real _ => "REAL"
  | SerializableValue.Text _ => "TEXT"
  | SerializableValue.Blob _ => "BLOB"

/-- native.rs: `stmt.column_names().iter().zip(first_item).map(...)` — the
declared column names zipped against the first materialized row's values. -/
def columnInfosOf (colNames : List String) (firstRow : List SerializableValue) :
    List ColumnInfo :=
  (colNames.zip firstRow).map (fun p => ColumnInfo.mk p.1 (typeNameOfValue p.2))

/-- Abstraction of one sqlite table: the statement's declared column names
and the full list of stored rows. -/
structure NativeTable where
  colNames : List String
  rows : List (List SerializableValue)

/-- Abstraction of a sqlite database file: a catalog of named tables. -/
structure NativeDb where
  tables : List (String × NativeTable)

/-- A freshly opened in-memory database (`Connection::open(":memory:")` or
`Connection::open_in_memory()`): it contains no tables. -/
def emptyDb : NativeDb := NativeDb.mk []

/-- The error string the abstract sqlite engine produces when a prepared
statement names a table that is not in the catalog. -/
def noSuchTableMsg (table_name : String) : String :=
  "no such table: " ++ table_name

/-- Core of `NativeDbManager::get_table_data` (native.rs lines 45-115) once
the statement has been prepared against table `t`: materialize at most 100
rows (the `LIMIT 100` in the query text), infer column metadata by zipping
the statement's column names with the first materialized row, and fetch the
total count with the separate `SELECT COUNT(star) FROM t` query; with zero
materialized rows it returns empty columns, empty rows and count 0. -/
def NativeDbManager.tableRequestOf (t : NativeTable) : TableRequest :=
  let fetched := t.rows.take 100
  match fetched.head? with
  | some first =>
      TableRequest.mk (columnInfosOf t.colNames first) fetched (Int.ofNat t.rows.length)
  | none => TableRequest.mk [] [] 0

/-- `NativeDbManager::get_table_data` (native.rs): preparing
`SELECT * FROM t LIMIT 100` fails with the engine's error when the table is
absent from the catalog; otherwise the result is `tableRequestOf`. -/
def NativeDbManager.get_table_data (db : NativeDb) (table_name : String) :
    Except String TableRequest :=
  match db.tables.lookup table_name with
  | some t => Except.ok (NativeDbManager.tableRequestOf t)
  | none => Except.error (noSuchTableMsg table_name)

/-- `NativeDbManager::get_all_tables` (native.rs): the names from
`SELECT name FROM sqlite_master WHERE type='table'`, i.e. the catalog. -/
def NativeDbManager.get_all_tables (db : NativeDb) : List String :=
  db.tables.map Prod.fst

/-- `NativeDbManager::run_query` (native.rs lines 250-315): `qres` is the
prepared statement's result set (declared column names and all matching
rows — no LIMIT is added here).  Column inference is as in
`get_table_data`; the count comes from the separate
`SELECT COUNT(star) FROM (query)` statement, which re-evaluates the same
result set. -/
def NativeDbManager.run_query (qres : NativeTable) : TableRequest :=
  match qres.rows.head? with
  | some first =>
      TableRequest.mk (columnInfosOf qres.colNames first) qres.rows
        (Int.ofNat qres.rows.length)
  | none => TableRequest.mk [] [] 0

/-- A single-quote character as a string (the quote used by libsql.rs when
interpolating Text values into SQL). -/
def squote : String := String.singleton (Char.ofNat 39)

/-- The SQL text built by `NativeDbManager::update_row` (native.rs lines
215-239): `UPDATE \x7btable\x7d SET \x7bcol\x7d = ? WHERE \x7bindex_col\x7d = \x7bid\x7d`.  The new
value itself is passed through a bound native parameter (the `?`), not
interpolated. -/
def NativeDbManager.update_row_sql (table_name col_name index_col_name : String)
    (id : Int) : String :=
  "UPDATE " ++ table_name ++ " SET " ++ col_name ++ " = ? WHERE " ++
    index_col_name ++ " = " ++ toString id

/-- The libsql transport abstraction: each returned row is the client's
`value_map` rendered as an association list (key, text of the value), in
the map's iteration order. -/
structure RemoteResultSet where
  rows : List (List (String × String))

/-- libsql.rs `get_table_data`: the column list is built from the key set of
the first row's map (iteration order), every column typed TEXT; absent
first row gives an empty column list. -/
def remoteRawColumns (data : RemoteResultSet) : List ColumnInfo :=
  match data.rows.head? with
  | some first => first.map (fun kv => ColumnInfo.mk kv.1 "TEXT")
  | none => []

/-- libsql.rs: the inner loop `for col in column_names \x7b
row.value_map.get(col.name).unwrap() \x7d` coercing every value to Text;
`none` models the `unwrap` panic when a later row lacks one of the first
row's keys. -/
def remoteRowValues (cols : List ColumnInfo) (row : List (String × String)) :
    Option (List SerializableValue) :=
  match cols with
  | [] => some []
  | c :: rest =>
      match row.lookup c.name with
      | none => none
      | some v => (remoteRowValues rest row).map
          (fun tl => SerializableValue.Text v :: tl)

/-- libsql.rs: the outer loop over `data.rows` building the row list. -/
def remoteRowsAux (cols : List ColumnInfo) :
    List (List (String × String)) → Option (List (List SerializableValue))
  | [] => some []
  | r :: rs =>
      match remoteRowValues cols r with
      | none => none
      | some vs => (remoteRowsAux cols rs).map (fun tl => vs :: tl)

/-- The Text-coerced rows the remote backend materializes before
id-promotion. -/
def remoteRawRows (data : RemoteResultSet) :
    Option (List (List SerializableValue)) :=
  remoteRowsAux (remoteRawColumns data) data.rows

/-- libsql.rs lines 105-111: the loop that scans for the first column
literally named `id`, leaving the index at its initial value 0 when no
such column exists.  `findIdIndex` is the first-match search. -/
def findIdIndex : List ColumnInfo → Option Nat
  | [] => none
  | c :: rest =>
      if c.name = "id" then some 0
      else (findIdIndex rest).map (fun i => i + 1)

/-- The `id_column_index` variable of libsql.rs: first index of a column
named `id`, defaulting to 0 when absent. -/
def idColumnIndex (cols : List ColumnInfo) : Nat :=
  (findIdIndex cols).getD 0

/-- libsql.rs lines 113-119: `let x = v.remove(i); v.insert(0, x)` — move
the element at index `i` to the front.  Out-of-range indices leave the
list unchanged (unreachable on the lists this code runs over, whose length
always covers the found index). -/
def moveToFront {α : Type} (l : List α) (i : Nat) : List α :=
  match l.get? i with
  | some x => x :: l.eraseIdx i
  | none => l

/-- libsql.rs: the id-promotion block — when the found index is nonzero,
relocate that column and the corresponding entry of every row to
position 0. -/
def applyIdPromotion (cols : List ColumnInfo)
    (rows : List (List SerializableValue)) :
    List ColumnInfo × List (List SerializableValue) :=
  let i := idColumnIndex cols
  if i = 0 then (cols, rows)
  else (moveToFront cols i, rows.map (fun r => moveToFront r i))

/-- `LibsqlDbManager::get_table_data` (libsql.rs lines 77-130) on the
result set of `SELECT * FROM \x7btable\x7d`: columns from the first row's key
set, every value coerced to Text, id-promotion applied, and `row_count`
left at 0 (never recomputed on this backend).  `none` models the panic of
an `unwrap` on a row lacking one of the first row's keys. -/
def LibsqlDbManager.get_table_data (data : RemoteResultSet) :
    Option TableRequest :=
  (remoteRawRows data).map (fun rows =>
    let p := applyIdPromotion (remoteRawColumns data) rows
    TableRequest.mk p.1 p.2 0)

/-- Modelled from the spec: `LibsqlDbManager::run_query` is required by the
`DbManagerTrait` but absent from src/src-tauri/src/libsql.rs.  Spec section
4.4 says `execute_query` issues the raw query text and follows the same
rules as `fetch_table` on this backend — column names from the key set of
the first row's map, every value coerced to Text, `total_row_count` left at
its default 0 — and section 4.4 also states id-promotion is not applied on
this backend, so none is applied here. -/
def LibsqlDbManager.run_query (data : RemoteResultSet) : Option TableRequest :=
  (remoteRawRows data).map (fun rows =>
    TableRequest.mk (remoteRawColumns data) rows 0)

/-- The SET fragment built by `LibsqlDbManager::update_row` (libsql.rs lines
222-239): Text quoted with single quotes, Blob and Null replaced by the
quoted placeholder words, Integer and Real unquoted. -/
def libsqlSetFragment (col_name : String) (value : SerializableValue) : String :=
  match value with
  | SerializableValue.Text t => col_name ++ " = " ++ squote ++ t ++ squote
  | SerializableValue.Blob _ => col_name ++ " = " ++ squote ++ "blob" ++ squote
  | SerializableValue.Null => col_name ++ " = " ++ squote ++ "null" ++ squote
  | SerializableValue.Integer i => col_name ++ " = " ++ toString i
  | SerializableValue.Real r => col_name ++ " = " ++ toString r

/-- The SQL text built by `LibsqlDbManager::update_row` (libsql.rs lines
214-245).  The caller's `index_col_name` parameter is bound as
`_index_col_name` in the source and never used: the WHERE clause is the
hard-coded `WHERE id = \x7bid\x7d`. -/
def LibsqlDbManager.update_row_sql (table_name col_name : String)
    ( _index_col_name : String) (id : Int) (value : SerializableValue) : String :=
  "UPDATE " ++ table_name ++ " SET " ++ libsqlSetFragment col_name value ++
    " WHERE id = " ++ toString id

/-- Rust `str::trim_matches('"')`: strip every leading and trailing double
quote (libsql.rs `get_all_tables`). -/
def trimQuotes (s : String) : String :=
  String.mk (((s.toList.dropWhile (fun c => c = Char.ofNat 34)).reverse.dropWhile
    (fun c => c = Char.ofNat 34)).reverse)

/-- `LibsqlDbManager::get_all_tables` (libsql.rs lines 44-66) applied to the
catalog query's result set: each row's `name` entry (`unwrap` panic — `none`
— when absent), quotes trimmed, names starting with an underscore skipped. -/
def LibsqlDbManager.get_all_tables (data : RemoteResultSet) :
    Option (List String) :=
  (data.rows.mapM (fun (row : List (String × String)) => row.lookup "name")).map
    (fun names =>
    (names.map trimQuotes).filter (fun n => !(n.startsWith "_")))

/-- `ConnectionType` from db_manager.rs: Sqlite(path) or Libsql(host, token). -/
inductive ConnectionType where
  | Sqlite (path : String) : ConnectionType
  | Libsql (host token : String) : ConnectionType
deriving DecidableEq

/-- Character-list prefix test (kernel-reducible model of Rust
`str::starts_with`). -/
def isPrefixOfChars : List Char → List Char → Bool
  | [], _ => true
  | _ :: _, [] => false
  | a :: as, b :: bs => a = b && isPrefixOfChars as bs

/-- Rust `str::starts_with` on strings. -/
def strStartsWith (s p : String) : Bool :=
  isPrefixOfChars p.toList s.toList

/-- Split a character list on the literal two-character separator `::`
exactly as Rust `str::split("::")` does (leftmost-first, non-overlapping). -/
def splitCC : List Char → List (List Char)
  | [] => [[]]
  | [c] => [[c]]
  | c1 :: c2 :: rest =>
      if c1 = Char.ofNat 58 ∧ c2 = Char.ofNat 58 then
        [] :: splitCC rest
      else
        match splitCC (c2 :: rest) with
        | [] => [[c1]]
        | seg :: segs => (c1 :: seg) :: segs

/-- Rust `path.split("::")` as a list of strings. -/
def splitOnColonColon (s : String) : List String :=
  (splitCC s.toList).map (fun cs => String.mk cs)

/-- The connection-string classification inside `DbManager::connect_to_db`
(db_manager.rs lines 66-81).  `none` models the panic of
`path.split("::").nth(1).unwrap()` when the raw string starts with
`libsql://` but contains no `::` separator; segment 0 always exists because
`split` yields at least one segment.  A raw string starting with `/` is an
absolute sqlite path; anything else resolves to
`\x7bcurrent_dir\x7d/../\x7braw\x7d`. -/
def resolveConnection (cwd : String) (path : String) : Option ConnectionType :=
  if strStartsWith path "libsql://" then
    match (splitOnColonColon path).get? 1 with
    | some token =>
        some (ConnectionType.Libsql (((splitOnColonColon path).get? 0).getD "") token)
    | none => none
  else if strStartsWith path "/" then
    some (ConnectionType.Sqlite path)
  else
    some (ConnectionType.Sqlite (cwd ++ "/../" ++ path))

/-- The backend variants the dispatcher can own (the boxed
`DbManagerTrait` object of db_manager.rs): a native sqlite backend over an
abstract database, or a libsql backend holding its host and token. -/
inductive Backend where
  | native (db : NativeDb) : Backend
  | libsql (host token : String) : Backend

/-- The dispatcher (`DbManager` of db_manager.rs): it always owns exactly
one backend. -/
structure DbManager where
  db : Backend

/-- `DbManager::new` (db_manager.rs lines 58-62): a native backend over a
fresh `:memory:` connection. -/
def DbManager.new : DbManager := DbManager.mk (Backend.native emptyDb)

/-- The remote service's responses, supplied from outside the model: the
result set for the catalog query and for a given table's
`SELECT * FROM \x7btable\x7d`, each either an error string or data. -/
structure RemoteEnv where
  catalog : Except String RemoteResultSet
  tableData : String → Except String RemoteResultSet

/-- `DbManager::connect_to_db` (db_manager.rs lines 66-110).  `openResult`
is the outcome of `Connection::open_with_flags` on the resolved sqlite
path: `none` means the file could not be opened, in which case the source's
`unwrap_or(Connection::open_in_memory().unwrap())` silently substitutes an
empty in-memory database.  Both branches return `Ok(1)`; the only
non-returning outcome (outer `none`) is the resolver's `unwrap` panic. -/
def DbManager.connect_to_db ( _m : DbManager) (cwd path : String)
    (openResult : Option NativeDb) : Option (DbManager × Nat) :=
  match resolveConnection cwd path with
  | none => none
  | some (ConnectionType.Sqlite _p) =>
      some (DbManager.mk (Backend.native (openResult.getD emptyDb)), 1)
  | some (ConnectionType.Libsql host token) =>
      some (DbManager.mk (Backend.libsql host token), 1)

/-- `DbManager::get_all_tables` forwarded to the active backend
(db_manager.rs lines 119-121).  The outer `Option` models a panic inside
the libsql row loop; the native path never panics. -/
def DbManager.get_all_tables (m : DbManager) (env : RemoteEnv) :
    Option (Except String (List String)) :=
  match m.db with
  | Backend.native db => some (Except.ok (NativeDbManager.get_all_tables db))
  | Backend.libsql _ _ =>
      match env.catalog with
      | Except.error e => some (Except.error e)
      | Except.ok data => (LibsqlDbManager.get_all_tables data).map Except.ok

/-! Helper lemmas about the embedded definitions. -/

/-- Taking 100 elements leaves the head unchanged. -/
theorem head?_take_100 {α : Type} (l : List α) : (l.take 100).head? = l.head? := by
  cases l with
  | nil => rfl
  | cons a as => rfl

/-- Looking up an index inside the list bounds it. -/
theorem lt_length_of_get?_eq_some {α : Type} {l : List α} {i : Nat} {a : α}
    (h : l.get? i = some a) : i < l.length := by
  by_contra hc
  rw [List.get?_eq_none.mpr (Nat.le_of_not_lt hc)] at h
  exact Option.noConfusion h

/-- `moveToFront` never changes the length of the list. -/
theorem moveToFront_length {α : Type} (l : List α) (i : Nat) :
    (moveToFront l i).length = l.length := by
  unfold moveToFront
  cases h : l.get? i with
  | none => rfl
  | some x =>
      have hlt : i < l.length := lt_length_of_get?_eq_some h
      simp only [List.length_cons]
      exact List.length_eraseIdx_add_one hlt

/-- Every element of `moveToFront l i` already occurs in `l`. -/
theorem mem_moveToFront {α : Type} {l : List α} {i : Nat} {a : α}
    (h : a ∈ moveToFront l i) : a ∈ l := by
  unfold moveToFront at h
  cases hg : l.get? i with
  | none => rw [hg] at h; exact h
  | some x =>
      rw [hg] at h
      rcases List.mem_cons.mp h with h1 | h1
      · exact h1 ▸ List.get?_mem hg
      · exact (List.eraseIdx_sublist l i).subset h1

/-- A successful `remoteRowValues` yields one value per requested column. -/
theorem remoteRowValues_length {cols : List ColumnInfo}
    {row : List (String × String)} {vs : List SerializableValue}
    (h : remoteRowValues cols row = some vs) : vs.length = cols.length := by
  induction cols generalizing vs with
  | nil =>
      unfold remoteRowValues at h
      cases h
      rfl
  | cons c rest ih =>
      unfold remoteRowValues at h
      cases hl : row.lookup c.name with
      | none => rw [hl] at h; exact Option.noConfusion h
      | some v =>
          rw [hl] at h
          cases hr : remoteRowValues rest row with
          | none => rw [hr] at h; exact Option.noConfusion h
          | some tl =>
              rw [hr] at h
              simp only [Option.map_some] at h
              cases h
              simp [ih hr]

/-- Every value a successful `remoteRowValues` produces is a Text value. -/
theorem remoteRowValues_text {cols : List ColumnInfo}
    {row : List (String × String)} {vs : List SerializableValue}
    (h : remoteRowValues cols row = some vs) :
    ∀ v ∈ vs, ∃ s, v = SerializableValue.Text s := by
  induction cols generalizing vs with
  | nil =>
      unfold remoteRowValues at h
      cases h
      intro v hv
      exact absurd hv (List.not_mem_nil v)
  | cons c rest ih =>
      unfold remoteRowValues at h
      cases hl : row.lookup c.name with
      | none => rw [hl] at h; exact Option.noConfusion h
      | some v0 =>
          rw [hl] at h
          cases hr : remoteRowValues rest row with
          | none => rw [hr] at h; exact Option.noConfusion h
          | some tl =>
              rw [hr] at h
              simp only [Option.map_some] at h
              cases h
              intro v hv
              rcases List.mem_cons.mp hv with h1 | h1
              · exact ⟨v0, h1⟩
              · exact ih hr v h1

/-- A successful `remoteRowsAux` gives every row exactly one value per
column. -/
theorem remoteRowsAux_length {cols : List ColumnInfo}
    {rs : List (List (String × String))} {out : List (List SerializableValue)}
    (h : remoteRowsAux cols rs = some out) :
    ∀ r ∈ out, r.length = cols.length := by
  induction rs generalizing out with
  | nil =>
      unfold remoteRowsAux at h
      cases h
      intro r hr
      exact absurd hr (List.not_mem_nil r)
  | cons x xs ih =>
      unfold remoteRowsAux at h
      cases hv : remoteRowValues cols x with
      | none => rw [hv] at h; exact Option.noConfusion h
      | some vs =>
          rw [hv] at h
          cases ht : remoteRowsAux cols xs with
          | none => rw [ht] at h; exact Option.noConfusion h
          | some tl =>
              rw [ht] at h
              simp only [Option.map_some] at h
              cases h
              intro r hr
              rcases List.mem_cons.mp hr with h1 | h1
              · exact h1 ▸ remoteRowValues_length hv
              · exact ih ht r h1

/-- Every value in every row a successful `remoteRowsAux` produces is Text. -/
theorem remoteRowsAux_text {cols : List ColumnInfo}
    {rs : List (List (String × String))} {out : List (List SerializableValue)}
    (h : remoteRowsAux cols rs = some out) :
    ∀ r ∈ out, ∀ v ∈ r, ∃ s, v = SerializableValue.Text s := by
  induction rs generalizing out with
  | nil =>
      unfold remoteRowsAux at h
      cases h
      intro r hr
      exact absurd hr (List.not_mem_nil r)
  | cons x xs ih =>
      unfold remoteRowsAux at h
      cases hv : remoteRowValues cols x with
      | none => rw [hv] at h; exact Option.noConfusion h
      | some vs =>
          rw [hv] at h
          cases ht : remoteRowsAux cols xs with
          | none => rw [ht] at h; exact Option.noConfusion h
          | some tl =>
              rw [ht] at h
              simp only [Option.map_some] at h
              cases h
              intro r hr
              rcases List.mem_cons.mp hr with h1 | h1
              · exact h1 ▸ remoteRowValues_text hv
              · exact ih ht r h1

/-- When the first-match search succeeds, the found index holds a column
literally named `id`. -/
theorem findIdIndex_spec {cols : List ColumnInfo} {i : Nat}
    (h : findIdIndex cols = some i) :
    ∃ c, cols.get? i = some c ∧ c.name = "id" := by
  induction cols generalizing i with
  | nil => exact Option.noConfusion h
  | cons c rest ih =>
      unfold findIdIndex at h
      by_cases hc : c.name = "id"
      · rw [if_pos hc] at h
        cases h
        exact ⟨c, rfl, hc⟩
      · rw [if_neg hc] at h
        cases hr : findIdIndex rest with
        | none => rw [hr] at h; exact Option.noConfusion h
        | some j =>
            rw [hr] at h
            have h3 : j + 1 = i := by simpa using h
            subst h3
            obtain ⟨d, hd, hdn⟩ := ih hr
            exact ⟨d, by simpa using hd, hdn⟩

/-- `tableRequestOf` on a table whose materialized window is nonempty:
columns are zipped from the declared names and the first row, the rows are
the 100-row window, and the count is the table's full cardinality. -/
theorem tableRequestOf_of_head {t : NativeTable} {first : List SerializableValue}
    (hhead : t.rows.head? = some first) :
    NativeDbManager.tableRequestOf t =
      TableRequest.mk (columnInfosOf t.colNames first) (t.rows.take 100)
        (Int.ofNat t.rows.length) := by
  simp only [NativeDbManager.tableRequestOf, head?_take_100, hhead]

/-- A table with columns (name, id, value) and one row, as in the claim. -/
def c1Table : NativeTable :=
  NativeTable.mk ["name", "id", "value"]
    [[SerializableValue.Text "a", SerializableValue.Integer 7, SerializableValue.Text "v"]]

/-- A database holding `c1Table` under the name `t`. -/
def c1Db : NativeDb := NativeDb.mk [("t", c1Table)]

/-- C1: the claim says the embedded backend's `get_table_data` moves a
column literally named `id` at index 1 to index 0.  On the concrete table
with columns (name, id, value) and one row the embedded backend returns the
columns exactly in statement order — `["name", "id", "value"]`, not the
`["id", "name", "value"]` the claim requires — so the claim is false:
native.rs contains no id-promotion code. -/
theorem C1_counterexample :
    NativeDbManager.get_table_data c1Db "t" =
      Except.ok (TableRequest.mk
        [ColumnInfo.mk "name" "TEXT", ColumnInfo.mk "id" "INTEGER",
         ColumnInfo.mk "value" "TEXT"]
        [[SerializableValue.Text "a", SerializableValue.Integer 7,
          SerializableValue.Text "v"]] 1) ∧
    [ColumnInfo.mk "name" "TEXT", ColumnInfo.mk "id" "INTEGER",
      ColumnInfo.mk "value" "TEXT"].map ColumnInfo.name ≠ ["id", "name", "value"] :=
  ⟨rfl, by decide⟩

/-- C1 (amended): the Embedded backend applies no id-promotion — for every
table whose first materialized row covers the declared columns,
`get_table_data` returns the column list exactly in the statement's
declared order and the rows exactly as materialized (capped at 100),
even when a column literally named `id` sits at an index other than 0
(id-promotion exists only on the Remote backend). -/
theorem C1_embedded_no_promotion (db : NativeDb) (nm : String) (t : NativeTable)
    (first : List SerializableValue)
    (hfind : db.tables.lookup nm = some t)
    (hhead : t.rows.head? = some first)
    (harity : t.colNames.length ≤ first.length) :
    ∃ res, NativeDbManager.get_table_data db nm = Except.ok res ∧
      res.column_names.map ColumnInfo.name = t.colNames ∧
      res.rows = t.rows.take 100 := by
  have hmap : (columnInfosOf t.colNames first).map ColumnInfo.name = t.colNames := by
    unfold columnInfosOf
    rw [List.map_map]
    have h2 : (ColumnInfo.name ∘ fun p => ColumnInfo.mk p.1 (typeNameOfValue p.2)) =
        (Prod.fst : String × SerializableValue → String) := rfl
    rw [h2, List.map_fst_zip _ _ harity]
  have hchar := tableRequestOf_of_head hhead
  refine ⟨NativeDbManager.tableRequestOf t, ?_, ?_, ?_⟩
  · simp [NativeDbManager.get_table_data, hfind]
  · rw [hchar]; exact hmap
  · rw [hchar]

/-- C1 witness: the amended theorem applied to the concrete (name, id,
value) table. -/
theorem C1_witness :
    c1Db.tables.lookup "t" = some c1Table ∧
    c1Table.rows.head? = some [SerializableValue.Text "a", SerializableValue.Integer 7,
      SerializableValue.Text "v"] ∧
    (∃ res, NativeDbManager.get_table_data c1Db "t" = Except.ok res ∧
      res.column_names.map ColumnInfo.name = c1Table.colNames ∧
      res.rows = c1Table.rows.take 100) :=
  ⟨rfl, rfl, C1_embedded_no_promotion c1Db "t" c1Table _ rfl rfl (by decide)⟩

/-- C6: on the Embedded backend `get_table_data` materializes at most 100
rows for EVERY table — exactly `min 100 n` of the table's `n` rows — while
`row_count` comes from the separate count query and is always the table's
true cardinality `n`; in particular a 150-row table yields 100 materialized
rows and a count of 150. -/
theorem C6_row_cap_and_count (db : NativeDb) (nm : String) (t : NativeTable)
    (hfind : db.tables.lookup nm = some t) :
    ∃ res, NativeDbManager.get_table_data db nm = Except.ok res ∧
      res.rows.length = min 100 t.rows.length ∧
      res.rows.length ≤ 100 ∧
      res.row_count = Int.ofNat t.rows.length := by
  have hkey : (NativeDbManager.tableRequestOf t).rows.length = min 100 t.rows.length ∧
      (NativeDbManager.tableRequestOf t).row_count = Int.ofNat t.rows.length := by
    cases hh : t.rows.head? with
    | none =>
        have ht : t.rows = [] := List.head?_eq_none_iff.mp hh
        have hempty : NativeDbManager.tableRequestOf t = TableRequest.mk [] [] 0 := by
          simp [NativeDbManager.tableRequestOf, ht]
        rw [hempty, ht]
        exact ⟨by decide, rfl⟩
    | some a =>
        have hchar := tableRequestOf_of_head hh
        rw [hchar]
        exact ⟨List.length_take 100 t.rows, rfl⟩
  refine ⟨NativeDbManager.tableRequestOf t,
    by simp [NativeDbManager.get_table_data, hfind], hkey.1, ?_, hkey.2⟩
  rw [hkey.1]
  exact Nat.min_le_left 100 t.rows.length

/-- A concrete table with 150 rows. -/
def c6Table : NativeTable :=
  NativeTable.mk ["a"] (List.replicate 150 [SerializableValue.Integer 0])

/-- A database holding `c6Table` under the name `t`. -/
def c6Db : NativeDb := NativeDb.mk [("t", c6Table)]

/-- C6 witness: the general cap-and-count theorem applied to the concrete
150-row table, where the cap evaluates to 100 and the count to 150. -/
theorem C6_witness :
    c6Db.tables.lookup "t" = some c6Table ∧
    (∃ res, NativeDbManager.get_table_data c6Db "t" = Except.ok res ∧
      res.rows.length = min 100 c6Table.rows.length ∧
      res.rows.length ≤ 100 ∧
      res.row_count = Int.ofNat c6Table.rows.length) ∧
    min 100 c6Table.rows.length = 100 ∧
    Int.ofNat c6Table.rows.length = 150 :=
  ⟨rfl, C6_row_cap_and_count c6Db "t" c6Table rfl, by simp [c6Table], by simp [c6Table]⟩

/-- C7: on the Embedded backend a table whose query returns zero rows —
whatever its declared schema — yields empty columns, empty rows and a zero
count. -/
theorem C7_empty_table_result (db : NativeDb) (nm : String) (t : NativeTable)
    (hfind : db.tables.lookup nm = some t) (hrows : t.rows = []) :
    NativeDbManager.get_table_data db nm = Except.ok (TableRequest.mk [] [] 0) := by
  simp [NativeDbManager.get_table_data, hfind, NativeDbManager.tableRequestOf, hrows]

/-- A concrete table with a two-column schema and no rows. -/
def c7Table : NativeTable := NativeTable.mk ["a", "b"] []

/-- A database holding `c7Table` under the name `e`. -/
def c7Db : NativeDb := NativeDb.mk [("e", c7Table)]

/-- C7 witness: the empty-result theorem applied to the concrete empty
table with a non-empty schema. -/
theorem C7_witness :
    c7Db.tables.lookup "e" = some c7Table ∧ c7Table.rows = [] ∧
    NativeDbManager.get_table_data c7Db "e" = Except.ok (TableRequest.mk [] [] 0) :=
  ⟨rfl, rfl, C7_empty_table_result c7Db "e" c7Table rfl rfl⟩

/-- A remote result set whose first row's map iterates as (name, id):
two rows of a table with an `id` column at index 1. -/
def c2Data : RemoteResultSet :=
  RemoteResultSet.mk [[("name", "a"), ("id", "1")], [("name", "b"), ("id", "2")]]

/-- C2: the claim says the Remote backend applies no id-promotion and
returns columns exactly in first-row map order.  On the concrete result
set whose first-row key order is (name, id), libsql.rs returns (id, name):
the id-promotion block at libsql.rs lines 104-120 relocated the column, so
the claim is false. -/
theorem C2_counterexample :
    LibsqlDbManager.get_table_data c2Data =
      some (TableRequest.mk [ColumnInfo.mk "id" "TEXT", ColumnInfo.mk "name" "TEXT"]
        [[SerializableValue.Text "1", SerializableValue.Text "a"],
         [SerializableValue.Text "2", SerializableValue.Text "b"]] 0) ∧
    [ColumnInfo.mk "id" "TEXT", ColumnInfo.mk "name" "TEXT"].map ColumnInfo.name ≠
      (remoteRawColumns c2Data).map ColumnInfo.name :=
  ⟨rfl, by decide⟩

/-- C2 (amended): the Remote backend's `get_table_data` DOES apply
id-promotion — when the first column literally named `id` in the first-row
map order sits at index i not 0, the returned columns are those of the map
order with that column moved to the front, every row permuted
identically, and the moved first column is indeed the one named `id`. -/
theorem C2_remote_promotes_id (d : RemoteResultSet) (i : Nat)
    (rows : List (List SerializableValue))
    (hidx : idColumnIndex (remoteRawColumns d) = i) (hne : i ≠ 0)
    (hrows : remoteRawRows d = some rows) :
    LibsqlDbManager.get_table_data d =
      some (TableRequest.mk (moveToFront (remoteRawColumns d) i)
        (rows.map (fun r => moveToFront r i)) 0) ∧
    ∃ c, (remoteRawColumns d).get? i = some c ∧ c.name = "id" ∧
      (moveToFront (remoteRawColumns d) i).head? = some c := by
  obtain ⟨j, hj⟩ : ∃ j, findIdIndex (remoteRawColumns d) = some j := by
    cases hf : findIdIndex (remoteRawColumns d) with
    | none =>
        exfalso
        apply hne
        rw [← hidx]
        unfold idColumnIndex
        rw [hf]
        rfl
    | some j => exact ⟨j, rfl⟩
  have hji : j = i := by
    unfold idColumnIndex at hidx
    rw [hj] at hidx
    simpa using hidx
  subst hji
  obtain ⟨c, hc, hcn⟩ := findIdIndex_spec hj
  have hap : applyIdPromotion (remoteRawColumns d) rows =
      (moveToFront (remoteRawColumns d) j, rows.map (fun r => moveToFront r j)) := by
    unfold applyIdPromotion
    rw [hidx, if_neg hne]
  constructor
  · unfold LibsqlDbManager.get_table_data
    rw [hrows]
    simp [hap]
  · refine ⟨c, hc, hcn, ?_⟩
    unfold moveToFront
    rw [hc]
    rfl

/-- C2 witness: the promotion theorem applied to the concrete (name, id)
result set. -/
theorem C2_witness :
    idColumnIndex (remoteRawColumns c2Data) = 1 ∧ (1 : Nat) ≠ 0 ∧
    remoteRawRows c2Data = some [[SerializableValue.Text "a", SerializableValue.Text "1"],
      [SerializableValue.Text "b", SerializableValue.Text "2"]] ∧
    (LibsqlDbManager.get_table_data c2Data =
      some (TableRequest.mk (moveToFront (remoteRawColumns c2Data) 1)
        ([[SerializableValue.Text "a", SerializableValue.Text "1"],
          [SerializableValue.Text "b", SerializableValue.Text "2"]].map
            (fun r => moveToFront r 1)) 0) ∧
     ∃ c, (remoteRawColumns c2Data).get? 1 = some c ∧ c.name = "id" ∧
       (moveToFront (remoteRawColumns c2Data) 1).head? = some c) :=
  ⟨rfl, by decide, rfl, C2_remote_promotes_id c2Data 1 _ rfl (by decide) rfl⟩

/-- C3: the claim says both backends match the WHERE clause on the
caller-supplied key column.  At the concrete call with key column `email`,
the Remote backend builds `WHERE id = 5` — not `WHERE email = 5` — because
libsql.rs binds the parameter as `_index_col_name` and never uses it; the
Embedded backend does use the caller's column.  The claim is false for the
Remote backend. -/
theorem C3_counterexample :
    LibsqlDbManager.update_row_sql "users" "age" "email" 5 (SerializableValue.Integer 7) =
      "UPDATE users SET age = 7 WHERE id = 5" ∧
    LibsqlDbManager.update_row_sql "users" "age" "email" 5 (SerializableValue.Integer 7) ≠
      "UPDATE users SET age = 7 WHERE email = 5" ∧
    NativeDbManager.update_row_sql "users" "age" "email" 5 =
      "UPDATE users SET age = ? WHERE email = 5" :=
  ⟨by decide, by decide, by decide⟩

/-- C3 (amended): `update_row` sets the given column where a key column
matches, but the key column differs per backend: the Embedded backend's
WHERE clause uses the caller-supplied `index_col_name`, while the Remote
backend ignores `index_col_name` entirely (its SQL is independent of it)
and always matches on the literal column `id`. -/
theorem C3_where_column_per_backend (table col icn icn2 : String) (id : Int) (v : SerializableValue) :
    NativeDbManager.update_row_sql table col icn id =
      "UPDATE " ++ table ++ " SET " ++ col ++ " = ? WHERE " ++ icn ++ " = " ++
        toString id ∧
    LibsqlDbManager.update_row_sql table col icn id v =
      LibsqlDbManager.update_row_sql table col icn2 id v ∧
    LibsqlDbManager.update_row_sql table col icn id v =
      "UPDATE " ++ table ++ " SET " ++ libsqlSetFragment col v ++ " WHERE id = " ++
        toString id :=
  ⟨rfl, rfl, rfl⟩

/-- C4: the claim says a `libsql://` string with a missing `::` segment
fails with a `MalformedConnectionString` error and does not terminate the
process.  On the concrete input `libsql://host.db` (no `::`), the resolver
inside `connect_to_db` evaluates `split("::").nth(1).unwrap()` on `None`
and panics — modelled as `none` — terminating the process instead of
returning any error value (no `MalformedConnectionString` exists anywhere
in the code), so the claim is false. -/
theorem C4_counterexample :
    resolveConnection "/cwd" "libsql://host.db" = none := by
  decide

/-- C4 (amended): for every raw string starting with `libsql://`,
`connect_to_db` splits on the literal `::`; when at least two segments
exist the result is a Remote descriptor with URL segment 0 and auth token
segment 1, and when the separator is missing the `unwrap` panics
(modelled `none`) instead of returning a `MalformedConnectionString`
error. -/
theorem C4_resolver_split (cwd raw u t : String) (rest : List String)
    (hpre : strStartsWith raw "libsql://" = true) :
    (splitOnColonColon raw = u :: t :: rest →
      resolveConnection cwd raw = some (ConnectionType.Libsql u t)) ∧
    (splitOnColonColon raw = [raw] → resolveConnection cwd raw = none) := by
  constructor
  · intro hs
    unfold resolveConnection
    simp [hpre, hs]
  · intro hs
    unfold resolveConnection
    simp [hpre, hs]

/-- C4 witness: the amended resolver theorem applied to a well-formed and
a separator-less concrete connection string. -/
theorem C4_witness :
    (strStartsWith "libsql://h::tok" "libsql://" = true ∧
      splitOnColonColon "libsql://h::tok" = ["libsql://h", "tok"] ∧
      resolveConnection "/cwd" "libsql://h::tok" =
        some (ConnectionType.Libsql "libsql://h" "tok")) ∧
    (strStartsWith "libsql://h.db" "libsql://" = true ∧
      splitOnColonColon "libsql://h.db" = ["libsql://h.db"] ∧
      resolveConnection "/cwd" "libsql://h.db" = none) :=
  ⟨⟨by decide, by decide,
      (C4_resolver_split "/cwd" "libsql://h::tok" "libsql://h" "tok" [] (by decide)).1 (by decide)⟩,
   ⟨by decide, by decide,
      (C4_resolver_split "/cwd" "libsql://h.db" "" "" [] (by decide)).2 (by decide)⟩⟩

/-- A remote environment whose every request fails: irrelevant to the
native backend the dispatcher holds after an embedded connect. -/
def c5Env : RemoteEnv := RemoteEnv.mk (Except.error "") (fun _ => Except.error "")

/-- C5: when the raw string resolves to an embedded sqlite path and the
file cannot be opened (`openResult = none`), `connect_to_db` still returns
`Ok(1)` with the active backend silently replaced by an empty in-memory
database, and a subsequent `get_all_tables` returns the empty list — no
connection error surfaces. -/
theorem C5_silent_memory_fallback (m : DbManager) (cwd path p : String) (env : RemoteEnv)
    (hres : resolveConnection cwd path = some (ConnectionType.Sqlite p)) :
    DbManager.connect_to_db m cwd path none =
      some (DbManager.mk (Backend.native emptyDb), 1) ∧
    DbManager.get_all_tables (DbManager.mk (Backend.native emptyDb)) env =
      some (Except.ok []) := by
  constructor
  · unfold DbManager.connect_to_db
    rw [hres]
    rfl
  · rfl

/-- C5 witness: the fallback theorem applied to the unopenable path of the
spec's own example. -/
theorem C5_witness :
    resolveConnection "/cwd" "/tmp/nonwritable.db" =
      some (ConnectionType.Sqlite "/tmp/nonwritable.db") ∧
    (DbManager.connect_to_db DbManager.new "/cwd" "/tmp/nonwritable.db" none =
      some (DbManager.mk (Backend.native emptyDb), 1) ∧
     DbManager.get_all_tables (DbManager.mk (Backend.native emptyDb)) c5Env =
      some (Except.ok [])) :=
  ⟨by decide, C5_silent_memory_fallback DbManager.new "/cwd" "/tmp/nonwritable.db" "/tmp/nonwritable.db"
    c5Env (by decide)⟩

/-- Every row the id-promotion step emits is a permutation-selection of
some input row: each of its values already occurs in that input row. -/
theorem applyIdPromotion_rows_mem {cols : List ColumnInfo}
    {rows : List (List SerializableValue)} {row : List SerializableValue}
    (h : row ∈ (applyIdPromotion cols rows).2) :
    ∃ r0 ∈ rows, ∀ v ∈ row, v ∈ r0 := by
  unfold applyIdPromotion at h
  by_cases hi : idColumnIndex cols = 0
  · rw [if_pos hi] at h
    exact ⟨row, h, fun v hv => hv⟩
  · rw [if_neg hi] at h
    obtain ⟨r0, hr0, hEq⟩ := List.mem_map.mp h
    exact ⟨r0, hr0, fun v hv => mem_moveToFront (hEq.symm ▸ hv)⟩

/-- id-promotion preserves the column count and every row's length. -/
theorem applyIdPromotion_lengths {cols : List ColumnInfo}
    {rows : List (List SerializableValue)}
    (hwf : ∀ r ∈ rows, r.length = cols.length) :
    ((applyIdPromotion cols rows).1).length = cols.length ∧
    ∀ row ∈ (applyIdPromotion cols rows).2, row.length = cols.length := by
  unfold applyIdPromotion
  by_cases hi : idColumnIndex cols = 0
  · rw [if_pos hi]
    exact ⟨rfl, hwf⟩
  · rw [if_neg hi]
    refine ⟨moveToFront_length _ _, ?_⟩
    intro row hrow
    obtain ⟨r0, hr0, hEq⟩ := List.mem_map.mp hrow
    rw [← hEq, moveToFront_length]
    exact hwf r0 hr0

/-- C8: on the Remote backend every value in every row of every successful
`get_table_data` or `run_query` result is a Text value, regardless of the
source SQL type — the transport delivers rendered strings and libsql.rs
wraps each one in `SerializableValue::Text`. -/
theorem C8_remote_values_text :
    (∀ d res, LibsqlDbManager.get_table_data d = some res →
      ∀ row ∈ res.rows, ∀ v ∈ row, ∃ s, v = SerializableValue.Text s) ∧
    (∀ d res, LibsqlDbManager.run_query d = some res →
      ∀ row ∈ res.rows, ∀ v ∈ row, ∃ s, v = SerializableValue.Text s) := by
  constructor
  · intro d res h row hrow v hv
    unfold LibsqlDbManager.get_table_data at h
    cases hr : remoteRawRows d with
    | none => rw [hr] at h; exact Option.noConfusion h
    | some rows =>
        rw [hr] at h
        injection h with h2
        subst h2
        have hrow2 : row ∈ (applyIdPromotion (remoteRawColumns d) rows).2 := hrow
        obtain ⟨r0, hr0, himp⟩ := applyIdPromotion_rows_mem hrow2
        unfold remoteRawRows at hr
        exact remoteRowsAux_text hr r0 hr0 v (himp v hv)
  · intro d res h row hrow v hv
    unfold LibsqlDbManager.run_query at h
    cases hr : remoteRawRows d with
    | none => rw [hr] at h; exact Option.noConfusion h
    | some rows =>
        rw [hr] at h
        injection h with h2
        subst h2
        have hrow2 : row ∈ rows := hrow
        unfold remoteRawRows at hr
        exact remoteRowsAux_text hr row hrow2 v hv

/-- A one-row, one-column remote result set. -/
def c8Data : RemoteResultSet := RemoteResultSet.mk [[("k", "1")]]

/-- C8 witness: the Text-only theorem applied to the concrete one-cell
result set. -/
theorem C8_witness :
    LibsqlDbManager.get_table_data c8Data =
      some (TableRequest.mk [ColumnInfo.mk "k" "TEXT"]
        [[SerializableValue.Text "1"]] 0) ∧
    (∃ s, SerializableValue.Text "1" = SerializableValue.Text s) :=
  ⟨rfl, C8_remote_values_text.1 c8Data
    (TableRequest.mk [ColumnInfo.mk "k" "TEXT"] [[SerializableValue.Text "1"]] 0) rfl
    [SerializableValue.Text "1"]
    (List.mem_cons_self [SerializableValue.Text "1"] [])
    (SerializableValue.Text "1")
    (List.mem_cons_self (SerializableValue.Text "1") [])⟩

/-- The zipped column list is as long as the shorter of the name list and
the first row. -/
theorem columnInfosOf_length (colNames : List String)
    (first : List SerializableValue) :
    (columnInfosOf colNames first).length = min colNames.length first.length := by
  unfold columnInfosOf
  simp [List.length_zip]

/-- C9: every row of every successfully returned `TableRequest` has exactly
as many values as the column list, positionally aligned — for the Embedded
backend's `get_table_data` and `run_query` (given the engine invariant that
every stored row matches the statement's column count) and for the Remote
backend's `get_table_data` and `run_query` unconditionally. -/
theorem C9_rows_align_columns :
    (∀ (db : NativeDb) (nm : String) (t : NativeTable) (res : TableRequest),
      db.tables.lookup nm = some t →
      (∀ r ∈ t.rows, r.length = t.colNames.length) →
      NativeDbManager.get_table_data db nm = Except.ok res →
      ∀ row ∈ res.rows, row.length = res.column_names.length) ∧
    (∀ (t : NativeTable), (∀ r ∈ t.rows, r.length = t.colNames.length) →
      ∀ row ∈ (NativeDbManager.run_query t).rows,
        row.length = (NativeDbManager.run_query t).column_names.length) ∧
    (∀ d res, LibsqlDbManager.get_table_data d = some res →
      ∀ row ∈ res.rows, row.length = res.column_names.length) ∧
    (∀ d res, LibsqlDbManager.run_query d = some res →
      ∀ row ∈ res.rows, row.length = res.column_names.length) := by
  have hremote : ∀ (d : RemoteResultSet)
      (rows : List (List SerializableValue)),
      remoteRawRows d = some rows →
      ∀ r ∈ rows, r.length = (remoteRawColumns d).length := by
    intro d rows hr
    unfold remoteRawRows at hr
    exact remoteRowsAux_length hr
  refine ⟨?_, ?_, ?_, ?_⟩
  · intro db nm t res hfind hwf hok row hrow
    unfold NativeDbManager.get_table_data at hok
    rw [hfind] at hok
    injection hok with h2
    subst h2
    cases ht : t.rows with
    | nil =>
        have hempty : NativeDbManager.tableRequestOf t = TableRequest.mk [] [] 0 := by
          simp [NativeDbManager.tableRequestOf, ht]
        rw [hempty] at hrow
        exact absurd hrow (List.not_mem_nil row)
    | cons a as =>
        have hhead : t.rows.head? = some a := by rw [ht]; rfl
        have hchar := tableRequestOf_of_head hhead
        rw [hchar] at hrow
        have hrow2 : row ∈ t.rows.take 100 := hrow
        have hmem : row ∈ t.rows := (List.take_subset 100 t.rows) hrow2
        have hfl : a.length = t.colNames.length :=
          hwf a (by rw [ht]; exact List.mem_cons_self a as)
        rw [hchar]
        show row.length = (columnInfosOf t.colNames a).length
        rw [columnInfosOf_length, hfl, Nat.min_self]
        exact hwf row hmem
  · intro t hwf row hrow
    cases ht : t.rows with
    | nil =>
        have hempty : NativeDbManager.run_query t = TableRequest.mk [] [] 0 := by
          simp [NativeDbManager.run_query, ht]
        rw [hempty] at hrow
        exact absurd hrow (List.not_mem_nil row)
    | cons a as =>
        have hchar : NativeDbManager.run_query t =
            TableRequest.mk (columnInfosOf t.colNames a) (a :: as)
              (Int.ofNat (a :: as).length) := by
          unfold NativeDbManager.run_query
          rw [ht]
          rfl
        rw [hchar] at hrow
        have hmem : row ∈ t.rows := by rw [ht]; exact hrow
        have hfl : a.length = t.colNames.length :=
          hwf a (by rw [ht]; exact List.mem_cons_self a as)
        rw [hchar]
        show row.length = (columnInfosOf t.colNames a).length
        rw [columnInfosOf_length, hfl, Nat.min_self]
        exact hwf row hmem
  · intro d res h row hrow
    unfold LibsqlDbManager.get_table_data at h
    cases hr : remoteRawRows d with
    | none => rw [hr] at h; exact Option.noConfusion h
    | some rows =>
        rw [hr] at h
        injection h with h2
        subst h2
        have hrow2 : row ∈ (applyIdPromotion (remoteRawColumns d) rows).2 := hrow
        have hlengths := applyIdPromotion_lengths (hremote d rows hr)
        show row.length = ((applyIdPromotion (remoteRawColumns d) rows).1).length
        rw [hlengths.1]
        exact hlengths.2 row hrow2
  · intro d res h row hrow
    unfold LibsqlDbManager.run_query at h
    cases hr : remoteRawRows d with
    | none => rw [hr] at h; exact Option.noConfusion h
    | some rows =>
        rw [hr] at h
        injection h with h2
        subst h2
        have hrow2 : row ∈ rows := hrow
        exact hremote d rows hr row hrow2

/-- A two-column, one-row table. -/
def c9Table : NativeTable :=
  NativeTable.mk ["x", "y"] [[SerializableValue.Integer 1, SerializableValue.Text "a"]]

/-- A database holding `c9Table` under the name `t`. -/
def c9Db : NativeDb := NativeDb.mk [("t", c9Table)]

/-- C9 witness: the alignment theorem applied to the concrete two-column
table. -/
theorem C9_witness :
    c9Db.tables.lookup "t" = some c9Table ∧
    (∀ r ∈ c9Table.rows, r.length = c9Table.colNames.length) ∧
    NativeDbManager.get_table_data c9Db "t" =
      Except.ok (TableRequest.mk
        [ColumnInfo.mk "x" "INTEGER", ColumnInfo.mk "y" "TEXT"]
        [[SerializableValue.Integer 1, SerializableValue.Text "a"]] 1) ∧
    ([SerializableValue.Integer 1, SerializableValue.Text "a"] :
        List SerializableValue).length =
      ([ColumnInfo.mk "x" "INTEGER", ColumnInfo.mk "y" "TEXT"] :
        List ColumnInfo).length :=
  ⟨rfl, fun r hr => by
      rcases List.mem_cons.mp hr with h1 | h1
      · rw [h1]; rfl
      · exact absurd h1 (List.not_mem_nil r),
   rfl,
   C9_rows_align_columns.1 c9Db "t" c9Table
     (TableRequest.mk [ColumnInfo.mk "x" "INTEGER", ColumnInfo.mk "y" "TEXT"]
       [[SerializableValue.Integer 1, SerializableValue.Text "a"]] 1)
     rfl
     (fun r hr => by
       rcases List.mem_cons.mp hr with h1 | h1
       · rw [h1]; rfl
       · exact absurd h1 (List.not_mem_nil r))
     rfl
     [SerializableValue.Integer 1, SerializableValue.Text "a"]
     (List.mem_cons_self [SerializableValue.Integer 1, SerializableValue.Text "a"] [])⟩

/-- C10: a freshly constructed dispatcher already holds a live Embedded
backend over the empty in-memory database — it is never backend-less —
so `get_all_tables` before any connect returns Ok with the empty list,
and a table fetch before any connect returns an ordinary error value
(not a crash or a special not-connected state). -/
theorem C10_fresh_dispatcher :
    DbManager.new.db = Backend.native emptyDb ∧
    (∀ env : RemoteEnv, DbManager.new.get_all_tables env = some (Except.ok [])) ∧
    (∀ nm : String, NativeDbManager.get_table_data emptyDb nm =
      Except.error (noSuchTableMsg nm)) :=
  ⟨rfl, fun _ => rfl, fun _ => rfl⟩
